import Mathlib

/-!
# improvedhttpclient: body capture in `LoggingTransport`, chain assembly, `HTTPClient.Do`

A shallow embedding of `pkg/improvedhttpclient/logging_transport.go` and
`pkg/improvedhttpclient/client.go`.

* Go byte slices are modelled with their underlying array, because
  `LoggingTransport.RoundTrip` builds its log copy with
  `append(body[:1<<20], ...)`, whose result may share the array of `body`.
* Library collaborators (the inner `http.RoundTripper`, `http.Client.Do`, the
  rate limiter, the retryer, the zerolog sink) are parameters or are recorded
  by the calls made on them.
-/

namespace ImprovedHTTPClient

/-! ## Bytes, errors, bodies -/

abbrev Byte := UInt8

/-- A Go `error` value: an opaque error with a message, or the result of
`fmt.Errorf` with a `%w` verb, which has its own message and unwraps to its cause. -/
inductive Error where
  | mk (msg : String)
  | wrap (msg : String) (cause : Error)
deriving DecidableEq

/-- The method `Error()` of an error value. -/
def Error.message : Error → String
  | .mk msg => msg
  | .wrap msg _ => msg

/-- The method `Unwrap()` of an error value. -/
def Error.unwrap : Error → Option Error
  | .mk _ => none
  | .wrap _ cause => some cause

/-- The call `fmt.Errorf(text + "%w", err)`: the message is the text followed by the
message of `err`, and the result unwraps to `err`. -/
def fmtErrorf (text : String) (err : Error) : Error :=
  .wrap (text ++ err.message) err

/-- An `io.ReadCloser`, described by what reading it once to completion gives: the
bytes delivered, and the error that ended the read (`none` for a clean EOF). -/
structure Body where
  data : List Byte
  err : Option Error
deriving DecidableEq

/-! ## Go slices -/

/-- A Go `[]byte` value. `array` is the underlying array from the first element of
the slice up to its capacity; `len` is the length of the slice. Two slices made
from one another by reslicing or by an in-place `append` share `array`. -/
structure Slice where
  array : List Byte
  len : Nat
deriving DecidableEq

/-- The builtin `cap(s)`. -/
def Slice.cap (s : Slice) : Nat := s.array.length

/-- The elements of the slice, `s[0] .. s[len(s)-1]`. -/
def Slice.toList (s : Slice) : List Byte := s.array.take s.len

/-- The slice expression `s[:hi]`: same array, same capacity, length `hi`. -/
def Slice.upTo (s : Slice) (hi : Nat) : Slice := { s with len := hi }

/-- The builtin `append(s, xs...)`. It returns the resulting slice together with the
contents, after the call, of the array underlying `s`. When the capacity of `s`
suffices the elements are written into that array and the result shares it;
otherwise a new array is allocated and the old one is left untouched. -/
def goAppend (s : Slice) (xs : List Byte) : Slice × List Byte :=
  if s.len + xs.length ≤ s.cap then
    let array := s.array.take s.len ++ xs ++ s.array.drop (s.len + xs.length)
    ({ array := array, len := s.len + xs.length }, array)
  else
    ({ array := s.toList ++ xs, len := s.len + xs.length }, s.array)

/-- The call `io.ReadAll(body)`: a slice holding the bytes read, and the read error.
The buffer `io.ReadAll` grows has some capacity beyond the bytes read; how much is
decided by the Go runtime and is the parameter `spare` (a function of the number
of bytes read). -/
def ioReadAll (spare : Nat → Nat) (body : Body) : Slice × Option Error :=
  ({ array := body.data ++ List.replicate (spare body.data.length) 0,
     len := body.data.length }, body.err)

/-- The expression `io.NopCloser(bytes.NewBuffer(s))`: a body whose read delivers the
elements of `s` as they are when it is read, and then a clean EOF. -/
def nopCloserNewBuffer (s : Slice) : Body := { data := s.toList, err := none }

/-! ## Requests, responses, log records -/

structure Request where
  Method : String
  URL : String
  Header : List (String × String)
  Body : Option Body
deriving DecidableEq

structure Response where
  Status : String
  StatusCode : Nat
  Header : List (String × String)
  Body : Option Body
deriving DecidableEq

/-- A zerolog sink (`*zerolog.Logger`); only its identity matters here. -/
structure Logger where
  id : Nat
deriving DecidableEq

inductive Level where
  | debug
  | error
deriving DecidableEq

/-- One field of a log event: `Str(key, val)` with a textual value, `Str(key,
string(bytes))` with the bytes of a body, or `Err(err)`. -/
inductive Field where
  | str (key : String) (val : String)
  | bytes (key : String) (val : List Byte)
  | err (e : Error)
deriving DecidableEq

/-- A log event as it is handed to the logger by `Msg`. Whether the sink writes an
event of a given level is the configuration of the sink. -/
structure LogRecord where
  level : Level
  fields : List Field
  msg : String
deriving DecidableEq

/-- What `RoundTrip` does that is visible outside it, in order: log events and the
call of the inner transport, with the request handed to it. -/
inductive Event where
  | log (record : LogRecord)
  | call (req : Request)
deriving DecidableEq

/-- How a call ended: it returned a `(response, error)` pair, or it panicked on a
nil pointer. -/
inductive Outcome where
  | returned (resp : Option Response) (err : Option Error)
  | panicked
deriving DecidableEq

structure Run where
  outcome : Outcome
  events : List Event
deriving DecidableEq

/-! ## `logging_transport.go` -/

/-- The type `LoggingTransport`; the inner `http.RoundTripper` is given by its
`RoundTrip` method. -/
structure LoggingTransport where
  transport : Request → Option Response × Option Error
  logger : Option Logger

/-- The bytes of the literal `"...(truncated)"`. -/
def truncatedMarker : List Byte :=
  [46, 46, 46, 40, 116, 114, 117, 110, 99, 97, 116, 101, 100, 41]

/-- The truncation block of `RoundTrip` (the same code on the request and on the
response path):
```
if len(body) > 1<<20 { logBody = append(body[:1<<20], []byte("...(truncated)")...) }
else { logBody = body }
```
It returns `logBody` and `body` as it is after the block; `body` keeps its pointer
and length, and its array is the one `append` may have written into. -/
def logCopy (body : Slice) : Slice × Slice :=
  if body.len > 1 <<< 20 then
    let (logBody, array) := goAppend (body.upTo (1 <<< 20)) truncatedMarker
    (logBody, { body with array := array })
  else
    (body, body)

/-- The second half of `LoggingTransport.RoundTrip`, from the call of the inner
transport to the end; `events` are the events of the first half. The error of the
inner transport is tested first. A log call on a nil logger, and the read of
`resp.Body` on a nil response, dereference a nil pointer. -/
def LoggingTransport.respond (spare : Nat → Nat) (t : LoggingTransport)
    (events : List Event) (req : Request) : Run :=
  let events := events ++ [Event.call req]
  match t.transport req with
  | (_, some err) =>
    match t.logger with
    | none => ⟨.panicked, events⟩
    | some _ =>
      ⟨.returned none (some err),
        events ++ [.log ⟨.error, [.err err], "Received error"⟩]⟩
  | (none, none) => ⟨.panicked, events⟩
  | (some resp, none) =>
    match resp.Body with
    | none => ⟨.returned (some resp) none, events⟩
    | some body =>
      match ioReadAll spare body with
      | (_, some err) =>
        ⟨.returned none (some (fmtErrorf "failed to read response body: " err)), events⟩
      | (respBody, none) =>
        let (logRespBody, respBody) := logCopy respBody
        let resp := { resp with Body := some (nopCloserNewBuffer respBody) }
        match t.logger with
        | none => ⟨.panicked, events⟩
        | some _ =>
          ⟨.returned (some resp) none,
            events ++ [.log ⟨.debug,
              [.str "status" resp.Status, .bytes "body" logRespBody.toList],
              "Received response"⟩]⟩

/-- The method `LoggingTransport.RoundTrip`. The first half captures the body of the
request, when there is one: read it, build the log copy, replace the body by a
buffer over the slice that was read, log. The second half is `respond`. -/
def LoggingTransport.RoundTrip (spare : Nat → Nat) (t : LoggingTransport)
    (req : Request) : Run :=
  match req.Body with
  | none => t.respond spare [] req
  | some body =>
    match ioReadAll spare body with
    | (_, some err) =>
      ⟨.returned none (some (fmtErrorf "failed to read request body: " err)), []⟩
    | (reqBody, none) =>
      let (logReqBody, reqBody) := logCopy reqBody
      let req := { req with Body := some (nopCloserNewBuffer reqBody) }
      match t.logger with
      | none => ⟨.panicked, []⟩
      | some _ =>
        t.respond spare
          [.log ⟨.debug,
            [.str "method" req.Method, .str "url" req.URL,
              .bytes "body" logReqBody.toList],
            "Sending request"⟩]
          req

/-- The request of a call event. -/
def Event.request? : Event → Option Request
  | .call req => some req
  | .log _ => none

/-- The requests handed to the inner transport during a run, in order. -/
def Run.sent (r : Run) : List Request := r.events.filterMap Event.request?

/-! ## `client.go` -/

/-- An `http.RoundTripper` as a link of the transport chain: the `*http.Transport` of
`defaultHTTPClient`, a `*LoggingTransport` around a round tripper, or a round
tripper of another package around a round tripper. -/
inductive RoundTripper where
  | httpTransport
  | logging (transport : RoundTripper) (logger : Option Logger)
  | custom (name : String) (inner : RoundTripper)
deriving DecidableEq

/-- The constructor `NewLoggingTransport`. -/
def NewLoggingTransport (transport : RoundTripper) (logger : Option Logger) : RoundTripper :=
  .logging transport logger

abbrev TransportWrapper := RoundTripper → RoundTripper

/-- A value of the interface `Clock`: the clock of `clock.New()` or another one. -/
inductive Clock where
  | real
  | other (id : Nat)
deriving DecidableEq

/-- An `http.Client`: its timeout in seconds and its transport. -/
structure HttpClient where
  Timeout : Nat
  Transport : RoundTripper
deriving DecidableEq

def defaultHTTPClient : HttpClient := { Timeout := 10, Transport := .httpTransport }

/-- A limiter of `go.uber.org/ratelimit`, recorded by the rate and the clock it was
built with. -/
structure Limiter where
  rate : Int
  clock : Clock
deriving DecidableEq

/-- The call `ratelimit.New(rate, ratelimit.WithClock(clock))`. The library divides its
period of one second by `rate`; for a rate of 0 this integer division panics, and
the call returns nothing: `none`. -/
def ratelimitNew (rate : Int) (clock : Clock) : Option Limiter :=
  if rate = 0 then none else some { rate := rate, clock := clock }

structure HTTPClient where
  innerClient : HttpClient
  rateLimiter : Limiter
deriving DecidableEq

structure HTTPClientConfig where
  rateLimitRequestsPerSecond : Int
  clock : Clock
  wireLoggingEnabled : Bool
  transportWrappers : List TransportWrapper
  logger : Option Logger

/-- An option is a function that updates the configuration it is given. -/
abbrev HTTPClientOption := HTTPClientConfig → HTTPClientConfig

def WithWireLogging (logger : Option Logger) : HTTPClientOption :=
  fun c => { c with logger := logger, wireLoggingEnabled := true }

def WithRateLimitRequestsPerSecond (rps : Int) : HTTPClientOption :=
  fun c => { c with rateLimitRequestsPerSecond := rps }

def WithClock (clock : Clock) : HTTPClientOption :=
  fun c => { c with clock := clock }

def WithTransportWrapper (wrapper : TransportWrapper) : HTTPClientOption :=
  fun c => { c with transportWrappers := c.transportWrappers ++ [wrapper] }

/-- The first loop of `NewHTTPClient`: the default configuration with every option
applied in order. -/
def buildConfig (opts : List HTTPClientOption) : HTTPClientConfig :=
  opts.foldl (fun config opt => opt config)
    { clock := .real, rateLimitRequestsPerSecond := 1, wireLoggingEnabled := false,
      transportWrappers := [], logger := none }

/-- The middle of `NewHTTPClient`, from `innerClient := defaultHTTPClient` to
`innerClient.Transport = transport`: the transport chain of the client. -/
def assembleTransport (config : HTTPClientConfig) : RoundTripper :=
  let innerClient := defaultHTTPClient
  let innerClient :=
    if config.wireLoggingEnabled then
      { innerClient with Transport := NewLoggingTransport innerClient.Transport config.logger }
    else innerClient
  config.transportWrappers.foldl (fun transport wrapper => wrapper transport)
    innerClient.Transport

/-- How a call of `NewHTTPClient` ends: it returns the pair `(client, error)`, or it
panics. -/
inductive Construction where
  | returned (client : Option HTTPClient) (err : Option Error)
  | panicked
deriving DecidableEq

/-- The constructor `NewHTTPClient`. The options are applied, the chain is assembled,
and then the limiter is built; when `ratelimit.New` panics, no client is returned. -/
def NewHTTPClient (opts : List HTTPClientOption) : Construction :=
  let config := buildConfig opts
  let innerClient := { defaultHTTPClient with Transport := assembleTransport config }
  match ratelimitNew config.rateLimitRequestsPerSecond config.clock with
  | none => .panicked
  | some rateLimiter =>
    .returned (some { innerClient := innerClient, rateLimiter := rateLimiter }) none

/-! ### `HTTPClient.Do` -/

/-- What a retryer decides before an attempt: run it, or end with an error value. -/
inductive Verdict where
  | attempt
  | finish (err : Option Error)
deriving DecidableEq

/-- The retryer of `retry.NewRetryer(retry.NewDefaultConfig())`, a collaborator of
another module, as a parameter. Before each attempt it is asked for a verdict on
the errors returned by the attempts made so far (oldest first); a spent budget, a
context cancelled during the wait and a successful attempt are verdicts to finish.
It never makes more than `maxAttempts` attempts, and `exhausted` is what it returns
then. The retryer of the code makes its first attempt whatever the context:
`0 < maxAttempts` and `verdict [] = .attempt`. -/
structure Retryer where
  maxAttempts : Nat
  verdict : List (Option Error) → Verdict
  exhausted : List (Option Error) → Option Error

/-- The loop of `retryer.Do`, with `budget` attempts left. -/
def Retryer.run {S : Type} (r : Retryer) (fn : S → S × Option Error) :
    Nat → List (Option Error) → S → S × Option Error
  | 0, history, s => (s, r.exhausted history)
  | budget + 1, history, s =>
    match r.verdict history with
    | .finish err => (s, err)
    | .attempt =>
      let (s, err) := fn s
      r.run fn budget (history ++ [err]) s

/-- The call `retryer.Do(ctx, fn)`: the state the attempts leave and the error of the
retryer. -/
def Retryer.Do {S : Type} (r : Retryer) (fn : S → S × Option Error) (s : S) :
    S × Option Error :=
  r.run fn r.maxAttempts [] s

/-- What the attempt closure calls, over a state `σ` of the world (the token bucket,
the network): `client.rateLimiter.Take()` and `client.innerClient.Do(req)`, the
send through the transport chain. -/
structure Env (σ : Type) where
  take : σ → σ
  send : σ → Request → (Option Response × Option Error) × σ

/-- What a call of `HTTPClient.Do` does, in order. -/
inductive Step where
  | token
  | sent (req : Request) (result : Option Response × Option Error)
deriving DecidableEq

/-- The variables the attempt closure captures (the named results `resp` and `err`),
the world, and the steps made so far. -/
structure DoState (σ : Type) where
  world : σ
  resp : Option Response
  err : Option Error
  steps : List Step
deriving DecidableEq

/-- The state in which `HTTPClient.Do` starts: both named results are nil. -/
def HTTPClient.start {σ : Type} (world : σ) : DoState σ :=
  { world := world, resp := none, err := none, steps := [] }

/-- The attempt closure of `HTTPClient.Do`. -/
def HTTPClient.attempt {σ : Type} (env : Env σ) (req : Request) (s : DoState σ) :
    DoState σ × Option Error :=
  let world := env.take s.world
  let (result, world) := env.send world req
  ({ world := world, resp := result.1, err := result.2,
     steps := s.steps ++ [.token, .sent req result] }, result.2)

/-- The method `HTTPClient.Do`: the error of the retryer is assigned to `_`, and the
named results are returned as the attempts left them. -/
def HTTPClient.Do {σ : Type} (retryer : Retryer) (env : Env σ) (req : Request)
    (world : σ) : DoState σ :=
  (retryer.Do (HTTPClient.attempt env req) (HTTPClient.start world)).1

/-- The result of a send step. -/
def Step.result? : Step → Option (Option Response × Option Error)
  | .sent _ result => some result
  | .token => none

/-- The `(response, error)` pairs the transport chain produced, one per attempt. -/
def DoState.results {σ : Type} (s : DoState σ) : List (Option Response × Option Error) :=
  s.steps.filterMap Step.result?

/-- The number of times the loop of `retryer.Do` invokes `fn`, with `budget` attempts
left. -/
def Retryer.invocations {S : Type} (r : Retryer) (fn : S → S × Option Error) :
    Nat → List (Option Error) → S → Nat
  | 0, _, _ => 0
  | budget + 1, history, s =>
    match r.verdict history with
    | .finish _ => 0
    | .attempt =>
      let (s, err) := fn s
      r.invocations fn budget (history ++ [err]) s + 1

/-- The `(response, error)` pairs the transport chain produces in `k` successive
attempts on the world `w`, the first attempt first: each attempt takes a token and
then sends the request, on the world the attempt before it left. -/
def chainResults {σ : Type} (env : Env σ) (req : Request) :
    Nat → σ → List (Option Response × Option Error)
  | 0, _ => []
  | k + 1, w =>
    (env.send (env.take w) req).1 :: chainResults env req k (env.send (env.take w) req).2

/-- The named results hold the pair of the last attempt, or nil and nil when no
attempt was made. -/
def Settled {σ : Type} (s : DoState σ) : Prop :=
  s.results.getLast?.getD (none, none) = (s.resp, s.err)

/-- One call of an option constructor of `client.go`, with its argument. -/
inductive OptionCall where
  | wireLogging (logger : Option Logger)
  | rateLimit (rps : Int)
  | clock (c : Clock)
  | transportWrapper (wrapper : TransportWrapper)

/-- The option a constructor call returns. -/
def OptionCall.option : OptionCall → HTTPClientOption
  | .wireLogging logger => WithWireLogging logger
  | .rateLimit rps => WithRateLimitRequestsPerSecond rps
  | .clock c => WithClock c
  | .transportWrapper wrapper => WithTransportWrapper wrapper

/-- The wrapper of a `WithTransportWrapper` call. -/
def OptionCall.wrapper? : OptionCall → Option TransportWrapper
  | .transportWrapper wrapper => some wrapper
  | _ => none

/-- The logger of a `WithWireLogging` call. -/
def OptionCall.logger? : OptionCall → Option (Option Logger)
  | .wireLogging logger => some logger
  | _ => none

/-! ## Reference definitions, after the wording of the specification -/

/-- The 14 bytes of the text `...(truncated)`. -/
def specMarker : List Byte := "...(truncated)".toList.map (fun c => c.toNat.toUInt8)

/-- The logged form of a body: the body itself when it has at most 1,048,576 bytes,
otherwise its first 1,048,576 bytes followed by the 14 bytes of `...(truncated)`. -/
def specTruncate (b : List Byte) : List Byte :=
  if b.length ≤ 1048576 then b else b.take 1048576 ++ specMarker

/-- The log of the request path: nothing for a request without a body, otherwise one
debug record `Sending request` with the method, the URL and the truncated body. -/
def specSendingLog (req : Request) : List Event :=
  match req.Body with
  | none => []
  | some b =>
    [.log ⟨.debug, [.str "method" req.Method, .str "url" req.URL,
      .bytes "body" (specTruncate b.data)], "Sending request"⟩]

/-- The log of the response path: nothing for a response without a body, otherwise
one debug record `Received response` with the status text and the truncated body. -/
def specReceivedLog (resp : Response) : List Event :=
  match resp.Body with
  | none => []
  | some c =>
    [.log ⟨.debug, [.str "status" resp.Status, .bytes "body" (specTruncate c.data)],
      "Received response"⟩]

/-- The wrappers `w_1 .. w_n` of the `WithTransportWrapper` options, in the order the
options were passed. -/
def specWrappers (calls : List OptionCall) : List TransportWrapper :=
  calls.filterMap OptionCall.wrapper?

/-- The logger of the last `WithWireLogging` option, when there is such an option. -/
def specWireLogging (calls : List OptionCall) : Option (Option Logger) :=
  (calls.filterMap OptionCall.logger?).getLast?

/-- The chain `w_n(...(w_2(w_1(L(base)))))`: the last wrapper is applied last, and `L`
is `NewLoggingTransport(., logger)` when a `WithWireLogging` option is present. -/
def specChain (calls : List OptionCall) : RoundTripper :=
  let base := defaultHTTPClient.Transport
  let logged :=
    match specWireLogging calls with
    | some logger => NewLoggingTransport base logger
    | none => base
  (specWrappers calls).reverse.foldr (fun wrapper inner => wrapper inner) logged

/-! ## Concrete inputs -/

/-- A body of 1,048,590 zero bytes: 1 MiB and the length of the marker. -/
def longBytes : List Byte := List.replicate (1048576 + 14) 0

def longRequest : Request :=
  { Method := "POST", URL := "http://example.test/upload", Header := [],
    Body := some { data := longBytes, err := none } }

def plainRequest : Request :=
  { Method := "GET", URL := "http://example.test/", Header := [], Body := none }

def longResponse : Response :=
  { Status := "200 OK", StatusCode := 200, Header := [],
    Body := some { data := longBytes, err := none } }

def smallRequest : Request :=
  { Method := "GET", URL := "http://example.test/", Header := [],
    Body := some { data := [114, 101, 113], err := none } }

def smallResponse : Response :=
  { Status := "200 OK", StatusCode := 200, Header := [],
    Body := some { data := [114, 101, 115, 112], err := none } }

def brokenRequest : Request :=
  { Method := "PUT", URL := "http://example.test/", Header := [],
    Body := some { data := [1, 2], err := some (.mk "unexpected EOF") } }

def brokenResponse : Response :=
  { Status := "200 OK", StatusCode := 200, Header := [],
    Body := some { data := [3], err := some (.mk "connection reset") } }

def serverErrorResponse : Response :=
  { Status := "500 Internal Server Error", StatusCode := 500, Header := [], Body := none }

def someLogger : Logger := { id := 0 }

/-- Three options: a wrapper, wire logging with a logger, and a second wrapper. -/
def exampleCalls : List OptionCall :=
  [.transportWrapper (.custom "otel"), .wireLogging (some someLogger),
    .transportWrapper (.custom "metrics")]

/-- A retryer that makes up to two attempts, stops with nil after a success, and
otherwise ends with the error of its last attempt. -/
def untilSuccess : Retryer :=
  { maxAttempts := 2
    verdict := fun history => if history.getLast? = some none then .finish none else .attempt
    exhausted := fun history => history.getLast?.getD none }

/-- A world that counts the sends; the first one times out, the later ones are
refused. -/
def countingEnv : Env Nat :=
  { take := fun n => n
    send := fun n _ =>
      ((none, some (.mk (if n = 0 then "timeout" else "connection refused"))), n + 1) }

/-- A world whose server answers every request with status 500. -/
def serverErrorEnv : Env Unit :=
  { take := fun w => w
    send := fun w _ => ((some serverErrorResponse, none), w) }

/-! ## The truncation block -/

theorem shiftLeft_one_twenty : (1 <<< 20 : Nat) = 1048576 := rfl

theorem truncatedMarker_length : truncatedMarker.length = 14 := rfl

theorem truncatedMarker_eq_specMarker : truncatedMarker = specMarker := by decide

theorem take_two_of_three {α : Type} (l m r : List α) (k : Nat)
    (hk : k = l.length + m.length) : (l ++ m ++ r).take k = l ++ m := by
  subst hk
  rw [← List.length_append]
  exact List.take_left _ _

/-- The log copy of a body that was read in full is its truncated form, whether
`append` wrote in place or allocated. -/
theorem logCopy_readAll_log (spare : Nat → Nat) (body : Body) :
    (logCopy (ioReadAll spare body).1).1.toList = specTruncate body.data := by
  unfold logCopy specTruncate ioReadAll
  rw [← truncatedMarker_eq_specMarker]
  simp only [shiftLeft_one_twenty]
  by_cases h : body.data.length ≤ 1048576
  · have h2 : ¬ body.data.length > 1048576 := by omega
    simp only [h, h2, if_true, if_false, Slice.toList]
    exact List.take_left _ _
  · have h2 : body.data.length > 1048576 := by omega
    have h3 : 1048576 ≤ body.data.length := by omega
    simp only [h, h2, if_true, if_false, goAppend, Slice.upTo, Slice.cap, Slice.toList]
    split
    · simp only []
      rw [take_two_of_three _ _ _ _ (by
        rw [List.length_take, List.length_append, truncatedMarker_length]; omega)]
      rw [List.take_append_of_le_length h3]
    · simp only []
      rw [List.take_append_of_le_length h3]
      apply List.take_of_length_le
      rw [List.length_append, List.length_take, truncatedMarker_length]; omega

/-- The body that is passed on, for a body of 1,048,590 bytes or more: the capacity
is at least the length, so `append` wrote the marker into the array of the body. -/
theorem logCopy_readAll_wire_long (spare : Nat → Nat) (body : Body)
    (h : 1048576 + 14 ≤ body.data.length) :
    (logCopy (ioReadAll spare body).1).2.toList
      = body.data.take 1048576 ++ truncatedMarker ++ body.data.drop (1048576 + 14) := by
  unfold logCopy ioReadAll
  have h2 : body.data.length > 1048576 := by omega
  have h3 : 1048576 ≤ body.data.length := by omega
  have h4 : 1048576 + truncatedMarker.length
      ≤ (body.data ++ List.replicate (spare body.data.length) 0).length := by
    rw [List.length_append, truncatedMarker_length]; omega
  simp only [shiftLeft_one_twenty, h2, if_true, goAppend, Slice.upTo, Slice.cap,
    Slice.toList, h4]
  rw [List.take_append_of_le_length h3, truncatedMarker_length,
    List.drop_append_of_le_length h, ← List.append_assoc]
  have hl : (List.take 1048576 body.data ++ truncatedMarker
      ++ List.drop (1048576 + 14) body.data).length = body.data.length := by
    simp only [List.length_append, List.length_take, List.length_drop,
      truncatedMarker_length]
    omega
  rw [← hl]
  exact List.take_left _ _

theorem replicate_marker_ne (n : Nat) :
    List.replicate n (0 : Byte) ++ truncatedMarker ≠ List.replicate (n + 14) 0 := by
  intro h
  have h2 := congrArg (fun l => l.drop n) h
  simp only [List.drop_replicate] at h2
  rw [List.drop_append_of_le_length (by simp), List.drop_replicate] at h2
  simp only [Nat.sub_self, Nat.add_sub_cancel_left, List.replicate_zero,
    List.nil_append] at h2
  revert h2
  decide

theorem take_drop_replicate (n : Nat) :
    (List.replicate (n + 14) (0 : Byte)).take n ++ truncatedMarker
        ++ (List.replicate (n + 14) (0 : Byte)).drop (n + 14)
      = List.replicate n 0 ++ truncatedMarker := by
  rw [List.take_replicate, List.drop_replicate, Nat.sub_self, Nat.min_eq_left (by omega)]
  simp

theorem longBytes_passed_on (spare : Nat → Nat) :
    (logCopy (ioReadAll spare { data := longBytes, err := none }).1).2.toList
      = List.replicate 1048576 0 ++ truncatedMarker := by
  rw [logCopy_readAll_wire_long spare _ (by
    show 1048576 + 14 ≤ (List.replicate (1048576 + 14) (0 : Byte)).length
    rw [List.length_replicate])]
  exact take_drop_replicate 1048576

/-! ## The paths of `RoundTrip` -/

theorem RoundTrip_no_body (spare : Nat → Nat) (t : LoggingTransport) (req : Request)
    (h : req.Body = none) :
    t.RoundTrip spare req = t.respond spare [] req := by
  unfold LoggingTransport.RoundTrip
  rw [h]

theorem RoundTrip_read_failed (spare : Nat → Nat) (t : LoggingTransport) (req : Request)
    (b : Body) (e : Error) (h : req.Body = some b) (he : b.err = some e) :
    t.RoundTrip spare req
      = ⟨.returned none (some (fmtErrorf "failed to read request body: " e)), []⟩ := by
  unfold LoggingTransport.RoundTrip
  rw [h]
  simp only [ioReadAll, he]

theorem RoundTrip_body (spare : Nat → Nat)
    (inner : Request → Option Response × Option Error)
    (lg : Logger) (req : Request) (b : Body) (h : req.Body = some b) (he : b.err = none) :
    LoggingTransport.RoundTrip spare ⟨inner, some lg⟩ req
      = LoggingTransport.respond spare ⟨inner, some lg⟩
          [.log ⟨.debug, [.str "method" req.Method, .str "url" req.URL,
            .bytes "body" (logCopy (ioReadAll spare b).1).1.toList], "Sending request"⟩]
          { req with Body := some (nopCloserNewBuffer (logCopy (ioReadAll spare b).1).2) } := by
  unfold LoggingTransport.RoundTrip
  rw [h]
  simp only [ioReadAll, he]

theorem respond_sent (spare : Nat → Nat) (t : LoggingTransport) (evs : List Event)
    (q : Request) :
    (t.respond spare evs q).sent = evs.filterMap Event.request? ++ [q] := by
  unfold LoggingTransport.respond Run.sent
  split
  · split <;> simp [Event.request?]
  · simp [Event.request?]
  · split
    · simp [Event.request?]
    · split
      · simp [Event.request?]
      · split
        split <;> simp [Event.request?]

theorem respond_error (spare : Nat → Nat)
    (inner : Request → Option Response × Option Error)
    (lg : Logger) (evs : List Event) (q : Request) (r : Option Response) (e : Error)
    (h : inner q = (r, some e)) :
    LoggingTransport.respond spare ⟨inner, some lg⟩ evs q
      = ⟨.returned none (some e),
          evs ++ [Event.call q] ++ [.log ⟨.error, [.err e], "Received error"⟩]⟩ := by
  unfold LoggingTransport.respond
  simp only [h]

theorem respond_no_body (spare : Nat → Nat) (t : LoggingTransport)
    (evs : List Event) (q : Request) (resp : Response)
    (h : t.transport q = (some resp, none)) (hb : resp.Body = none) :
    t.respond spare evs q = ⟨.returned (some resp) none, evs ++ [Event.call q]⟩ := by
  unfold LoggingTransport.respond
  simp only [h, hb]

theorem respond_read_failed (spare : Nat → Nat) (t : LoggingTransport)
    (evs : List Event) (q : Request) (resp : Response) (c : Body) (e : Error)
    (h : t.transport q = (some resp, none)) (hb : resp.Body = some c)
    (he : c.err = some e) :
    t.respond spare evs q
      = ⟨.returned none (some (fmtErrorf "failed to read response body: " e)),
          evs ++ [Event.call q]⟩ := by
  unfold LoggingTransport.respond
  simp only [h, hb, ioReadAll, he]

theorem respond_body (spare : Nat → Nat)
    (inner : Request → Option Response × Option Error)
    (lg : Logger) (evs : List Event) (q : Request) (resp : Response) (c : Body)
    (h : inner q = (some resp, none)) (hb : resp.Body = some c) (he : c.err = none) :
    LoggingTransport.respond spare ⟨inner, some lg⟩ evs q
      = ⟨.returned
            (some { resp with
              Body := some (nopCloserNewBuffer (logCopy (ioReadAll spare c).1).2) }) none,
          evs ++ [Event.call q] ++
            [.log ⟨.debug, [.str "status" resp.Status,
              .bytes "body" (logCopy (ioReadAll spare c).1).1.toList],
              "Received response"⟩]⟩ := by
  unfold LoggingTransport.respond
  simp only [h, hb, ioReadAll, he, List.append_assoc, List.singleton_append]

/-- When a request reached the inner transport, the first half of `RoundTrip` ended
without an error and its events are the reference log of the request path. -/
theorem events_before_call (spare : Nat → Nat)
    (inner : Request → Option Response × Option Error)
    (lg : Logger) (req q : Request)
    (hq : q ∈ (LoggingTransport.RoundTrip spare ⟨inner, some lg⟩ req).sent) :
    LoggingTransport.RoundTrip spare ⟨inner, some lg⟩ req
      = LoggingTransport.respond spare ⟨inner, some lg⟩ (specSendingLog req) q := by
  cases hb : req.Body with
  | none =>
    rw [RoundTrip_no_body _ _ _ hb, respond_sent] at hq
    have hqr : q = req := by simpa using hq
    subst hqr
    rw [RoundTrip_no_body _ _ _ hb]
    simp only [specSendingLog, hb]
  | some b =>
    cases he : b.err with
    | some e =>
      rw [RoundTrip_read_failed _ _ _ b e hb he] at hq
      simp [Run.sent] at hq
    | none =>
      rw [RoundTrip_body _ _ _ _ b hb he, respond_sent] at hq
      have hqr : q = { req with
          Body := some (nopCloserNewBuffer (logCopy (ioReadAll spare b).1).2) } := by
        simpa [Event.request?] using hq
      subst hqr
      rw [RoundTrip_body _ _ _ _ b hb he]
      simp only [specSendingLog, hb, logCopy_readAll_log]

/-! ## `LoggingTransport.RoundTrip`: the claims -/

/-- Claim C1, evaluated on a request body of 1,048,590 zero bytes. For every capacity
`io.ReadAll` may leave, every inner transport and every logger, the request handed
to the inner transport carries a body whose last 14 bytes are the bytes of
`...(truncated)`: `append(reqBody[:1<<20], ...)` wrote the marker into the array of
`reqBody`, so the bytes passed on are not the original bytes. -/
theorem requestBody_overwritten_by_marker (spare : Nat → Nat)
    (inner : Request → Option Response × Option Error) (lg : Logger) :
    (LoggingTransport.RoundTrip spare ⟨inner, some lg⟩ longRequest).sent
        = [{ longRequest with
              Body := some { data := List.replicate 1048576 0 ++ truncatedMarker,
                             err := none } }]
      ∧ List.replicate 1048576 0 ++ truncatedMarker ≠ longBytes := by
  refine ⟨?_, replicate_marker_ne 1048576⟩
  rw [RoundTrip_body spare inner lg longRequest { data := longBytes, err := none } rfl rfl,
    respond_sent]
  simp only [List.filterMap_cons, Event.request?, List.filterMap_nil,
    List.nil_append, nopCloserNewBuffer, longBytes_passed_on]

/-- Claim C2, evaluated on a response body of 1,048,590 zero bytes returned by the
inner transport without error. The response `RoundTrip` returns keeps the status
and the header, and its body ends in the 14 bytes of `...(truncated)`: it is not
the body the inner transport returned. -/
theorem responseBody_overwritten_by_marker (spare : Nat → Nat) (lg : Logger) :
    (LoggingTransport.RoundTrip spare ⟨fun _ => (some longResponse, none), some lg⟩
        plainRequest).outcome
        = .returned (some { longResponse with
              Body := some { data := List.replicate 1048576 0 ++ truncatedMarker,
                             err := none } })
            none
      ∧ List.replicate 1048576 0 ++ truncatedMarker ≠ longBytes := by
  refine ⟨?_, replicate_marker_ne 1048576⟩
  rw [RoundTrip_no_body _ _ _ rfl,
    respond_body spare _ lg [] plainRequest longResponse { data := longBytes, err := none }
      rfl rfl rfl]
  simp only [nopCloserNewBuffer, longBytes_passed_on]

/-- Claim C3. In a successful `RoundTrip` (the request `q` reached the inner
transport, which returned the response `resp` without error, and the body of
`resp` is absent or reads without error), the events are, in this order: the
reference log of the request path (no record without a request body, else one
debug record `Sending request` with method, URL and truncated body), the call of
the inner transport, and the reference log of the response path (no record without
a response body, else one debug record `Received response` with the status text and
the truncated body). -/
theorem roundTrip_log_matches_reference (spare : Nat → Nat)
    (inner : Request → Option Response × Option Error) (lg : Logger)
    (req q : Request) (resp : Response)
    (hq : q ∈ (LoggingTransport.RoundTrip spare ⟨inner, some lg⟩ req).sent)
    (hinner : inner q = (some resp, none))
    (hresp : ∀ c, resp.Body = some c → c.err = none) :
    (LoggingTransport.RoundTrip spare ⟨inner, some lg⟩ req).events
      = specSendingLog req ++ [Event.call q] ++ specReceivedLog resp := by
  rw [events_before_call spare inner lg req q hq]
  cases hb : resp.Body with
  | none =>
    rw [respond_no_body spare _ _ q resp hinner hb]
    simp only [specReceivedLog, hb, List.append_nil]
  | some c =>
    rw [respond_body spare inner lg _ q resp c hinner hb (hresp c hb)]
    simp only [specReceivedLog, hb, logCopy_readAll_log]

theorem roundTrip_log_matches_reference_witness :
    smallRequest ∈ (LoggingTransport.RoundTrip (fun _ => 4)
        ⟨fun _ => (some smallResponse, none), some someLogger⟩ smallRequest).sent ∧
    (LoggingTransport.RoundTrip (fun _ => 4)
        ⟨fun _ => (some smallResponse, none), some someLogger⟩ smallRequest).events
      = specSendingLog smallRequest ++ [Event.call smallRequest]
          ++ specReceivedLog smallResponse :=
  ⟨by decide,
    roundTrip_log_matches_reference (fun _ => 4) (fun _ => (some smallResponse, none))
      someLogger smallRequest smallRequest smallResponse (by decide) rfl
      (fun c h => by cases h; rfl)⟩

/-- Claim C6. When the inner transport, called with the request `q`, returns the
error `e` (with or without a response), `RoundTrip` returns a nil response and `e`
itself; its events are the log of the request path, the call, and one error record
`Received error` carrying `e`, and nothing after it. -/
theorem roundTrip_inner_error_unchanged (spare : Nat → Nat)
    (inner : Request → Option Response × Option Error) (lg : Logger)
    (req q : Request) (r : Option Response) (e : Error)
    (hq : q ∈ (LoggingTransport.RoundTrip spare ⟨inner, some lg⟩ req).sent)
    (hinner : inner q = (r, some e)) :
    LoggingTransport.RoundTrip spare ⟨inner, some lg⟩ req
      = ⟨.returned none (some e),
          specSendingLog req ++ [Event.call q]
            ++ [.log ⟨.error, [.err e], "Received error"⟩]⟩ := by
  rw [events_before_call spare inner lg req q hq]
  exact respond_error spare inner lg _ q r e hinner

theorem roundTrip_inner_error_unchanged_witness :
    smallRequest ∈ (LoggingTransport.RoundTrip (fun _ => 0)
        ⟨fun _ => (none, some (.mk "connection refused")), some someLogger⟩
        smallRequest).sent ∧
    LoggingTransport.RoundTrip (fun _ => 0)
        ⟨fun _ => (none, some (.mk "connection refused")), some someLogger⟩ smallRequest
      = ⟨.returned none (some (.mk "connection refused")),
          specSendingLog smallRequest ++ [Event.call smallRequest]
            ++ [.log ⟨.error, [.err (.mk "connection refused")], "Received error"⟩]⟩ :=
  ⟨by decide,
    roundTrip_inner_error_unchanged (fun _ => 0)
      (fun _ => (none, some (.mk "connection refused"))) someLogger smallRequest
      smallRequest none (.mk "connection refused") (by decide) rfl⟩

/-- Claim C7. When the read of the request body fails with `e`, `RoundTrip` returns a
nil response and an error that wraps `e` with the message `failed to read request
body: ` followed by the message of `e`, and it has no event: no `Sending request`
record and no call of the inner transport. When the inner transport, called with
`q`, returns a response whose body read fails with `e`, `RoundTrip` returns a nil
response and an error that wraps `e` with the message `failed to read response
body: ` followed by the message of `e`, and its events end with the call: there is
no `Received response` record. -/
theorem roundTrip_body_read_failure (spare : Nat → Nat)
    (inner : Request → Option Response × Option Error)
    (logger : Option Logger) (lg : Logger) (req q : Request) (resp : Response)
    (b c : Body) (e : Error) :
    (req.Body = some b → b.err = some e →
      LoggingTransport.RoundTrip spare ⟨inner, logger⟩ req
        = ⟨.returned none
            (some (.wrap ("failed to read request body: " ++ e.message) e)), []⟩) ∧
    (q ∈ (LoggingTransport.RoundTrip spare ⟨inner, some lg⟩ req).sent →
      inner q = (some resp, none) → resp.Body = some c → c.err = some e →
      LoggingTransport.RoundTrip spare ⟨inner, some lg⟩ req
        = ⟨.returned none
            (some (.wrap ("failed to read response body: " ++ e.message) e)),
            specSendingLog req ++ [Event.call q]⟩) := by
  constructor
  · intro hb he
    exact RoundTrip_read_failed spare _ req b e hb he
  · intro hq hinner hb he
    rw [events_before_call spare inner lg req q hq]
    exact respond_read_failed spare _ _ q resp c e hinner hb he

theorem roundTrip_body_read_failure_witness :
    LoggingTransport.RoundTrip (fun _ => 0)
        ⟨fun _ => (some brokenResponse, none), some someLogger⟩ brokenRequest
      = ⟨.returned none
          (some (.wrap "failed to read request body: unexpected EOF"
            (.mk "unexpected EOF"))), []⟩ ∧
    LoggingTransport.RoundTrip (fun _ => 0)
        ⟨fun _ => (some brokenResponse, none), some someLogger⟩ smallRequest
      = ⟨.returned none
          (some (.wrap "failed to read response body: connection reset"
            (.mk "connection reset"))),
          specSendingLog smallRequest ++ [Event.call smallRequest]⟩ :=
  ⟨(roundTrip_body_read_failure (fun _ => 0) (fun _ => (some brokenResponse, none))
      (some someLogger) someLogger brokenRequest brokenRequest brokenResponse
      { data := [1, 2], err := some (.mk "unexpected EOF") }
      { data := [3], err := some (.mk "connection reset") } (.mk "unexpected EOF")).1
      rfl rfl,
   (roundTrip_body_read_failure (fun _ => 0) (fun _ => (some brokenResponse, none))
      (some someLogger) someLogger smallRequest smallRequest brokenResponse
      { data := [1, 2], err := some (.mk "unexpected EOF") }
      { data := [3], err := some (.mk "connection reset") } (.mk "connection reset")).2
      (by decide) rfl rfl rfl⟩

/-! ## `NewHTTPClient`: the claims -/

/-- The configuration after a list of constructor calls, from any configuration. -/
theorem fold_options (calls : List OptionCall) :
    ∀ c0 : HTTPClientConfig,
      ((calls.map OptionCall.option).foldl (fun config opt => opt config) c0).transportWrappers
          = c0.transportWrappers ++ specWrappers calls ∧
      ((calls.map OptionCall.option).foldl (fun config opt => opt config) c0).wireLoggingEnabled
          = (c0.wireLoggingEnabled || (specWireLogging calls).isSome) ∧
      ((calls.map OptionCall.option).foldl (fun config opt => opt config) c0).logger
          = (specWireLogging calls).getD c0.logger := by
  induction calls with
  | nil => intro c0; simp [specWrappers, specWireLogging]
  | cons call rest ih =>
    intro c0
    simp only [List.map_cons, List.foldl_cons]
    obtain ⟨h1, h2, h3⟩ := ih (call.option c0)
    rw [h1, h2, h3]
    cases call <;>
      simp [OptionCall.option, WithWireLogging, WithRateLimitRequestsPerSecond, WithClock,
        WithTransportWrapper, specWrappers, specWireLogging, OptionCall.wrapper?,
        OptionCall.logger?, List.getLast?_cons]


/-- The assembled chain, for every list of constructor calls. -/
theorem assembleTransport_calls (calls : List OptionCall) :
    assembleTransport (buildConfig (calls.map OptionCall.option)) = specChain calls := by
  obtain ⟨h1, h2, h3⟩ := fold_options calls
    { clock := .real, rateLimitRequestsPerSecond := 1, wireLoggingEnabled := false,
      transportWrappers := [], logger := none }
  simp only [assembleTransport, buildConfig, h1, h2, h3, specChain, List.foldr_reverse,
    List.nil_append, Bool.false_or]
  cases specWireLogging calls <;> simp

/-- With a rate other than 0 the limiter is built and the client is returned. -/
theorem NewHTTPClient_returns (opts : List HTTPClientOption)
    (hrate : (buildConfig opts).rateLimitRequestsPerSecond ≠ 0) :
    NewHTTPClient opts
      = .returned (some
          { innerClient :=
              { defaultHTTPClient with Transport := assembleTransport (buildConfig opts) },
            rateLimiter :=
              { rate := (buildConfig opts).rateLimitRequestsPerSecond,
                clock := (buildConfig opts).clock } }) none := by
  simp [NewHTTPClient, ratelimitNew, hrate]

/-- With a rate of 0 the construction of the limiter panics. -/
theorem NewHTTPClient_panics (opts : List HTTPClientOption)
    (hrate : (buildConfig opts).rateLimitRequestsPerSecond = 0) :
    NewHTTPClient opts = .panicked := by
  simp [NewHTTPClient, ratelimitNew, hrate]

/-- Claim C4. For every list of constructor calls, the transport chain `NewHTTPClient`
assembles is `w_n(...(w_2(w_1(L(base)))))`: the wrappers of the
`WithTransportWrapper` options applied in the order passed, the last one
outermost, around `NewLoggingTransport(base, logger)` when a `WithWireLogging`
option is present (wherever it stands; `logger` is the one of the last such
option) and around the base transport otherwise. When the configured rate is not
0, `NewHTTPClient` returns a client with this chain and a nil error; when it is 0,
the chain is assembled and `ratelimit.New` then panics. -/
theorem newHTTPClient_chain_order (calls : List OptionCall) :
    assembleTransport (buildConfig (calls.map OptionCall.option)) = specChain calls ∧
    ((buildConfig (calls.map OptionCall.option)).rateLimitRequestsPerSecond ≠ 0 →
      ∃ client,
        NewHTTPClient (calls.map OptionCall.option) = .returned (some client) none ∧
        client.innerClient.Transport = specChain calls) ∧
    ((buildConfig (calls.map OptionCall.option)).rateLimitRequestsPerSecond = 0 →
      NewHTTPClient (calls.map OptionCall.option) = .panicked) := by
  refine ⟨assembleTransport_calls calls, ?_, NewHTTPClient_panics _⟩
  intro hrate
  exact ⟨_, NewHTTPClient_returns _ hrate, assembleTransport_calls calls⟩

theorem newHTTPClient_chain_order_witness :
    specChain exampleCalls
      = .custom "metrics" (.custom "otel" (.logging .httpTransport (some someLogger))) ∧
    ∃ client,
      NewHTTPClient (exampleCalls.map OptionCall.option) = .returned (some client) none ∧
      client.innerClient.Transport = specChain exampleCalls :=
  ⟨by decide, (newHTTPClient_chain_order exampleCalls).2.1 (by decide)⟩

/-- Claim C9 fails as stated: with the single option `WithWireLogging(nil)` the
configuration has wire logging enabled and no logger, and `NewHTTPClient` returns
a client, whose chain holds a `LoggingTransport` with a nil logger, and a nil
error. -/
theorem newHTTPClient_accepts_nil_logger :
    (buildConfig [WithWireLogging none]).wireLoggingEnabled = true ∧
    (buildConfig [WithWireLogging none]).logger = none ∧
    NewHTTPClient [WithWireLogging none]
      = .returned
          (some { innerClient := { Timeout := 10, Transport := .logging .httpTransport none },
                  rateLimiter := { rate := 1, clock := .real } }) none := by
  decide

/-- Claim C9 as amended. `NewHTTPClient` does not validate the configuration: for
every list of options that leaves a positive rate (the rate the limiter is built
for), it returns a client and a nil error, with or without a logger. -/
theorem newHTTPClient_never_fails (opts : List HTTPClientOption)
    (hrate : 0 < (buildConfig opts).rateLimitRequestsPerSecond) :
    ∃ client, NewHTTPClient opts = .returned (some client) none :=
  ⟨_, NewHTTPClient_returns opts (by omega)⟩

theorem newHTTPClient_never_fails_witness :
    0 < (buildConfig [WithWireLogging none]).rateLimitRequestsPerSecond ∧
    ∃ client, NewHTTPClient [WithWireLogging none] = .returned (some client) none :=
  ⟨by decide, newHTTPClient_never_fails [WithWireLogging none] (by decide)⟩

/-! ## `HTTPClient.Do`: the claims -/

theorem attempt_results {σ : Type} (env : Env σ) (req : Request) (s : DoState σ) :
    (HTTPClient.attempt env req s).1.results
      = s.results ++ [(env.send (env.take s.world) req).1] := by
  simp [HTTPClient.attempt, DoState.results, Step.result?]

theorem attempt_world {σ : Type} (env : Env σ) (req : Request) (s : DoState σ) :
    (HTTPClient.attempt env req s).1.world = (env.send (env.take s.world) req).2 := by
  simp [HTTPClient.attempt]

theorem attempt_named {σ : Type} (env : Env σ) (req : Request) (s : DoState σ) :
    ((HTTPClient.attempt env req s).1.resp, (HTTPClient.attempt env req s).1.err)
      = (env.send (env.take s.world) req).1 := by
  simp [HTTPClient.attempt]

theorem attempt_settled {σ : Type} (env : Env σ) (req : Request) (s : DoState σ) :
    Settled (HTTPClient.attempt env req s).1 := by
  unfold Settled
  rw [attempt_results, attempt_named, List.getLast?_append]
  simp

theorem run_settled {σ : Type} (r : Retryer) (env : Env σ) (req : Request) :
    ∀ (budget : Nat) (history : List (Option Error)) (s : DoState σ),
      Settled s → Settled (r.run (HTTPClient.attempt env req) budget history s).1 := by
  intro budget
  induction budget with
  | zero => intro history s hs; simpa [Retryer.run] using hs
  | succ n ih =>
    intro history s hs
    unfold Retryer.run
    split
    · exact hs
    · exact ih _ _ (attempt_settled env req s)

theorem do_settled {σ : Type} (r : Retryer) (env : Env σ) (req : Request) (w : σ) :
    Settled (HTTPClient.Do r env req w) := by
  unfold HTTPClient.Do Retryer.Do
  apply run_settled
  simp [Settled, HTTPClient.start, DoState.results]

/-- The sends of a run are those of the transport chain: as many as the retryer made
invocations, each on the world the one before it left. -/
theorem run_chain {σ : Type} (r : Retryer) (env : Env σ) (req : Request) :
    ∀ (budget : Nat) (history : List (Option Error)) (s : DoState σ),
      (r.run (HTTPClient.attempt env req) budget history s).1.results
        = s.results ++ chainResults env req
            (r.invocations (HTTPClient.attempt env req) budget history s) s.world := by
  intro budget
  induction budget with
  | zero => intro history s; simp [Retryer.run, Retryer.invocations, chainResults]
  | succ n ih =>
    intro history s
    unfold Retryer.run Retryer.invocations
    split
    · simp [chainResults]
    · simp only []
      rw [ih, attempt_results, attempt_world]
      simp [chainResults]

theorem do_chain {σ : Type} (r : Retryer) (env : Env σ) (req : Request) (w : σ) :
    (HTTPClient.Do r env req w).results
      = chainResults env req
          (r.invocations (HTTPClient.attempt env req) r.maxAttempts [] (HTTPClient.start w))
          w := by
  unfold HTTPClient.Do Retryer.Do
  rw [run_chain]
  simp [HTTPClient.start, DoState.results]

theorem chainResults_length {σ : Type} (env : Env σ) (req : Request) :
    ∀ (k : Nat) (w : σ), (chainResults env req k w).length = k := by
  intro k
  induction k with
  | zero => intro w; rfl
  | succ n ih => intro w; simp [chainResults, ih]

/-- The pair `Do` returns is the last pair of the chain, once an attempt was made. -/
theorem do_last_of_chain {σ : Type} (r : Retryer) (env : Env σ) (req : Request) (w : σ)
    (hk : 1 ≤ r.invocations (HTTPClient.attempt env req) r.maxAttempts []
      (HTTPClient.start w)) :
    (chainResults env req
        (r.invocations (HTTPClient.attempt env req) r.maxAttempts [] (HTTPClient.start w))
        w).getLast?
      = some ((HTTPClient.Do r env req w).resp, (HTTPClient.Do r env req w).err) := by
  have h := do_settled r env req w
  unfold Settled at h
  rw [do_chain] at h
  cases hl : (chainResults env req
      (r.invocations (HTTPClient.attempt env req) r.maxAttempts [] (HTTPClient.start w))
      w).getLast? with
  | none =>
    rw [List.getLast?_eq_none_iff] at hl
    have hlen := chainResults_length env req
      (r.invocations (HTTPClient.attempt env req) r.maxAttempts [] (HTTPClient.start w)) w
    rw [hl] at hlen
    simp at hlen
    omega
  | some x =>
    rw [hl] at h
    simpa using h

/-- Claim C5. When the retryer invokes the attempt closure `k ≥ 1` times, the sends
of `Do` are the `k` successive sends of the transport chain, and `Do` returns the
`(response, error)` pair the chain produced on the `k`-th of them, whatever the
earlier ones produced: when every attempt fails, the error returned is the one of
the last attempt. -/
theorem do_returns_last_attempt {σ : Type} (r : Retryer) (env : Env σ) (req : Request)
    (w : σ) (k : Nat)
    (hcount : r.invocations (HTTPClient.attempt env req) r.maxAttempts []
      (HTTPClient.start w) = k)
    (hk : 1 ≤ k) :
    (HTTPClient.Do r env req w).results = chainResults env req k w ∧
    (chainResults env req k w).getLast?
      = some ((HTTPClient.Do r env req w).resp, (HTTPClient.Do r env req w).err) := by
  subst hcount
  exact ⟨do_chain r env req w, do_last_of_chain r env req w hk⟩

theorem do_returns_last_attempt_witness :
    untilSuccess.invocations (HTTPClient.attempt countingEnv plainRequest)
        untilSuccess.maxAttempts [] (HTTPClient.start 0) = 2 ∧
    chainResults countingEnv plainRequest 2 0
      = [(none, some (.mk "timeout")), (none, some (.mk "connection refused"))] ∧
    (HTTPClient.Do untilSuccess countingEnv plainRequest 0).results
      = chainResults countingEnv plainRequest 2 0 ∧
    (chainResults countingEnv plainRequest 2 0).getLast?
      = some ((HTTPClient.Do untilSuccess countingEnv plainRequest 0).resp,
          (HTTPClient.Do untilSuccess countingEnv plainRequest 0).err) :=
  ⟨by decide, by decide,
    do_returns_last_attempt untilSuccess countingEnv plainRequest 0 2 (by decide)
      (by decide)⟩

/-- Claim C8. When the transport chain returns a response without error, whatever
its status code, the attempt closure returns nil to the retryer; and with a
retryer that makes a first attempt and stops once that attempt has returned no
error, `Do` takes one token, sends the request once, and returns that response
with a nil error. -/
theorem do_single_attempt_on_response {σ : Type} (r : Retryer) (env : Env σ)
    (req : Request) (w : σ) (resp : Response)
    (hbudget : 0 < r.maxAttempts) (hfirst : r.verdict [] = .attempt)
    (hstop : r.verdict [none] ≠ .attempt)
    (hsend : (env.send (env.take w) req).1 = (some resp, none)) :
    (HTTPClient.attempt env req (HTTPClient.start w)).2 = none ∧
    (HTTPClient.Do r env req w).steps = [.token, .sent req (some resp, none)] ∧
    (HTTPClient.Do r env req w).resp = some resp ∧
    (HTTPClient.Do r env req w).err = none := by
  have hfn : HTTPClient.attempt env req (HTTPClient.start w)
      = ({ world := (env.send (env.take w) req).2, resp := some resp, err := none,
           steps := [.token, .sent req (some resp, none)] }, none) := by
    simp [HTTPClient.attempt, HTTPClient.start, hsend]
  refine ⟨by rw [hfn], ?_⟩
  obtain ⟨n, hn⟩ : ∃ n, r.maxAttempts = n + 1 := ⟨r.maxAttempts - 1, by omega⟩
  have hrun : HTTPClient.Do r env req w
      = { world := (env.send (env.take w) req).2, resp := some resp, err := none,
          steps := [.token, .sent req (some resp, none)] } := by
    unfold HTTPClient.Do Retryer.Do
    rw [hn]
    unfold Retryer.run
    simp only [hfirst, hfn, List.nil_append]
    cases n with
    | zero => simp [Retryer.run]
    | succ m =>
      unfold Retryer.run
      cases hv : r.verdict [none] with
      | attempt => exact absurd hv hstop
      | finish e => simp
  rw [hrun]
  exact ⟨rfl, rfl, rfl⟩

theorem do_single_attempt_on_response_witness :
    serverErrorResponse.StatusCode = 500 ∧
    (HTTPClient.Do untilSuccess serverErrorEnv plainRequest ()).steps
      = [.token, .sent plainRequest (some serverErrorResponse, none)] ∧
    (HTTPClient.Do untilSuccess serverErrorEnv plainRequest ()).resp
      = some serverErrorResponse ∧
    (HTTPClient.Do untilSuccess serverErrorEnv plainRequest ()).err = none :=
  ⟨rfl,
    (do_single_attempt_on_response untilSuccess serverErrorEnv plainRequest ()
      serverErrorResponse (by decide) (by decide) (by decide) rfl).2⟩

end ImprovedHTTPClient
